import Mathlib

/-!
# Windows signal translation and process termination (`signals/signal_windows.go`)

A shallow embedding of `ToSignal`, `Kill` and `generateConsoleCtrlEvent`.

The Go code talks to the operating system; here every such call is recorded as an
`Action` in a trace, and everything the operating system answers is read from an
`Env` value, so a theorem quantified over `Env` holds for every behaviour of the
environment.
-/

namespace Signals

/-! ## Errors -/

/-- Go `error` values that the package creates or is handed by the standard library. -/
inductive Error
  /-- the value made by `errors.New(text)` -/
  | errorString (text : String)
  /-- an `*exec.ExitError`: the command ran and exited with this non-zero status -/
  | exitError (code : Nat)
  /-- a `syscall.Errno` with the text the system gives for it -/
  | errno (e : Nat) (text : String)
  /-- any other error of the standard library (`*os.PathError`, `exec.ErrNotFound`, ...) -/
  | other (text : String)
  deriving DecidableEq, Repr

/-- The method `Error()` of an error value. -/
def Error.message : Error → String
  | .errorString text => text
  | .exitError code => "exit status " ++ toString code
  | .errno _ text => text
  | .other text => text

/-- Go `errors.New`. -/
def errors.New (text : String) : Error := Error.errorString text

/-! ## Signals -/

/-- A value of the interface type `os.Signal`: the nil interface, a `syscall.Signal`
(`type Signal int`), or a value of some other type implementing the interface. -/
inductive os.Signal
  | nil
  | sys (n : Int)
  | foreign (id : Nat)
  deriving DecidableEq, Repr

namespace syscall

/-- The conversion `syscall.Signal(n)`, seen as an `os.Signal`. -/
def Signal (n : Int) : os.Signal := os.Signal.sys n

/-- Signal numbers of Go package `syscall` on windows. -/
def SIGHUP : os.Signal := Signal 0x1
/-- Interrupt. -/
def SIGINT : os.Signal := Signal 0x2
/-- Quit. -/
def SIGQUIT : os.Signal := Signal 0x3
/-- Kill. -/
def SIGKILL : os.Signal := Signal 0x9
/-- Terminate. -/
def SIGTERM : os.Signal := Signal 0xf

/-- Console control event number of CTRL+C (Go package `syscall` on windows). -/
def CTRL_C_EVENT : Nat := 0

end syscall

/-! ## Logging -/

/-- Severity of a logrus entry. -/
inductive Level
  | warn
  deriving DecidableEq, Repr

/-- One entry handed to the logger. -/
structure LogEntry where
  level : Level
  msg : String
  deriving DecidableEq, Repr

/-- Call `log.Warn(msg)`: the entry it emits. -/
def log.Warn (msg : String) : LogEntry := ⟨Level.warn, msg⟩

/-! ## `ToSignal` -/

/-- What one call of `ToSignal` yields: the two results and the log entries emitted. -/
structure Translation where
  sig : os.Signal
  err : Option Error
  logs : List LogEntry
  deriving DecidableEq, Repr

/-- Function `ToSignal`: convert a signal name to signal. -/
def ToSignal (signalName : String) : Translation :=
  if signalName = "HUP" then
    ⟨syscall.SIGHUP, none, []⟩
  else if signalName = "INT" then
    ⟨syscall.SIGINT, none, []⟩
  else if signalName = "QUIT" then
    ⟨syscall.SIGQUIT, none, []⟩
  else if signalName = "KILL" then
    ⟨syscall.SIGKILL, none, []⟩
  else if signalName = "USR1" then
    ⟨os.Signal.nil, some (errors.New "signal USR1 is not supported in windows"),
      [log.Warn "signal USR1 is not supported in windows"]⟩
  else if signalName = "USR2" then
    ⟨os.Signal.nil, some (errors.New "signal USR2 is not supported in windows"),
      [log.Warn "signal USR2 is not supported in windows"]⟩
  else if signalName = "BRK" then
    ⟨syscall.Signal 0xa, none, []⟩
  else
    ⟨syscall.SIGTERM, none, []⟩

/-! ## Processes, actions and the environment -/

/-- The part of a (non-nil) `*os.Process` the package reads: the process identifier. -/
structure Process where
  Pid : Int
  deriving DecidableEq, Repr

/-- One call into the operating system, with its arguments. -/
inductive Action
  /-- call `procSetConsoleCtrlHandler.Call(handler, add)` -/
  | SetConsoleCtrlHandler (handler add : Nat)
  /-- call `procGenerateConsoleCtrlEvent.Call(event, group)` -/
  | GenerateConsoleCtrlEvent (event group : Nat)
  /-- call `time.Now()` -/
  | Now
  /-- call `os.FindProcess(pid)` -/
  | FindProcess (pid : Int)
  /-- call `proc.Release()` on the handle found for `pid` -/
  | Release (pid : Int)
  /-- call `time.Sleep(d)`, `d` in nanoseconds -/
  | Sleep (d : Nat)
  /-- call `exec.Command(name, args...)` followed by `cmd.Start()` -/
  | Start (name : String) (args : List String)
  /-- call `cmd.Wait()` -/
  | Wait
  /-- call `process.Signal(sig)` on the process `pid` -/
  | Signal (pid : Int) (sig : os.Signal)
  deriving DecidableEq, Repr

/-- How the started command ended, as `cmd.Wait()` learns it. -/
inductive WaitStatus
  /-- the command ran to its end with this exit status -/
  | exited (code : Nat)
  /-- waiting itself failed with this error -/
  | failed (e : Error)
  deriving DecidableEq, Repr

/-- Go `(*exec.Cmd).Wait` for a command without redirected streams: nil when the
command exits with status zero, an `*exec.ExitError` when it exits with another
status, the error of the wait otherwise. -/
def Cmd.Wait : WaitStatus → Option Error
  | .exited 0 => none
  | .exited (n + 1) => some (Error.exitError (n + 1))
  | .failed e => some e

/-- Everything the operating system answers during one call of `Kill`. -/
structure Env where
  /-- result of `cmd.Start()` for the command with this name and arguments -/
  start : String → List String → Option Error
  /-- how the started command ends -/
  wait : WaitStatus
  /-- result of `process.Signal(sig)` on this pid -/
  signal : Int → os.Signal → Option Error
  /-- first result of the `GenerateConsoleCtrlEvent` call -/
  r1 : Nat
  /-- third result of the `GenerateConsoleCtrlEvent` call; `(*syscall.Proc).Call`
  always returns a non-nil error, built from `GetLastError` -/
  lastErr : Error
  /-- clock reading, in nanoseconds, of the `time.Now()` that fixes the deadline -/
  now : Nat
  /-- time that passes unasked, in nanoseconds: `lag 0` between fixing the deadline and
  the first test of the loop, `lag (k + 1)` on top of the second slept in round `k` -/
  lag : Nat → Nat
  /-- whether lookup number `k` (from 0) of this pid finds a process -/
  found : Nat → Int → Bool

namespace time

/-- Go `time.Second`, in nanoseconds. -/
def Second : Nat := 1000000000

end time

/-- Go `fmt.Sprintf("%d", n)` for an `int`. -/
def fmt.Sprintf_d (n : Int) : String := toString n

/-- What one call of `Kill` or `generateConsoleCtrlEvent` yields: the returned error,
the calls made in order, and the clock reading of the last test of the poll loop
(`env.now` when the loop is not entered). -/
structure Outcome where
  err : Option Error
  trace : List Action
  clock : Nat
  deriving DecidableEq, Repr

/-- The loop `for endTime.After(time.Now()) { ... }` of `generateConsoleCtrlEvent`,
entered for round `k` with the clock at `now`: the calls it makes and the clock at
its end. -/
def pollLoop (env : Env) (pid : Int) (endTime : Nat) (k : Nat) (now : Nat) :
    List Action × Nat :=
  if endTime > now then
    if env.found k pid then
      let rest := pollLoop env pid endTime (k + 1) (now + time.Second + env.lag (k + 1))
      (Action.Now :: Action.FindProcess pid :: Action.Release pid ::
        Action.Sleep (1 * time.Second) :: rest.1, rest.2)
    else
      ([Action.Now, Action.FindProcess pid], now)
  else
    ([Action.Now], now)
termination_by endTime - now
decreasing_by
  simp_wf
  unfold time.Second
  omega

/-- Function `generateConsoleCtrlEvent`. The deferred call is the last of the trace. -/
def generateConsoleCtrlEvent (env : Env) (process : Process) (sig : os.Signal)
    (sigChilren : Bool) : Outcome :=
  let _ := sig
  let _ := sigChilren
  let sent := [Action.SetConsoleCtrlHandler 0 1,
    Action.GenerateConsoleCtrlEvent syscall.CTRL_C_EVENT 0]
  if env.r1 = 0 then
    ⟨some env.lastErr, sent ++ [Action.SetConsoleCtrlHandler 0 0], env.now⟩
  else
    let endTime := env.now + 10 * time.Second
    let polled := pollLoop env process.Pid endTime 0 (env.now + env.lag 0)
    ⟨none, sent ++ Action.Now :: polled.1 ++ [Action.SetConsoleCtrlHandler 0 0], polled.2⟩

/-- Function `Kill`. -/
def Kill (env : Env) (process : Process) (sig : os.Signal) (sigChilren : Bool) : Outcome :=
  if sig = syscall.Signal 0xa then
    generateConsoleCtrlEvent env process sig sigChilren
  else
    let args := ["/F", "/T", "/PID", fmt.Sprintf_d process.Pid]
    match env.start "taskkill" args with
    | none => ⟨Cmd.Wait env.wait, [Action.Start "taskkill" args, Action.Wait], env.now⟩
    | some _ =>
      ⟨env.signal process.Pid sig,
        [Action.Start "taskkill" args, Action.Signal process.Pid sig], env.now⟩

/-! ## The console control handler of the supervisor -/

/-- How the calling process treats CTRL+C. -/
inductive CtrlMode
  | normal
  | ignoring
  deriving DecidableEq, Repr

/-- Effect of one call on the handler state: `SetConsoleCtrlHandler(NULL, add)` makes
the process ignore CTRL+C when `add` is non-zero and restores normal processing when
it is zero; no other call touches it. -/
def CtrlMode.step (m : CtrlMode) : Action → CtrlMode
  | .SetConsoleCtrlHandler 0 add => if add = 0 then CtrlMode.normal else CtrlMode.ignoring
  | _ => m

/-- Handler state after a sequence of calls. -/
def CtrlMode.after (m : CtrlMode) (trace : List Action) : CtrlMode :=
  trace.foldl CtrlMode.step m

/-- Number of `os.FindProcess` calls in a trace. -/
def lookups : List Action → Nat
  | [] => 0
  | Action.FindProcess _ :: rest => lookups rest + 1
  | _ :: rest => lookups rest

/-- Number of `time.Sleep` calls in a trace. -/
def sleeps : List Action → Nat
  | [] => 0
  | Action.Sleep _ :: rest => sleeps rest + 1
  | _ :: rest => sleeps rest

/-- The calls of one full round of the loop: the process is found, released, and
a second is slept. -/
def round (pid : Int) : List Action :=
  [Action.Now, Action.FindProcess pid, Action.Release pid, Action.Sleep (1 * time.Second)]

/-- The calls of `n` full rounds in a row. -/
def rounds (pid : Int) : Nat → List Action
  | 0 => []
  | n + 1 => round pid ++ rounds pid n

/-- The sleeps last exactly one second and nothing else takes time. -/
def Env.steadyClock (env : Env) : Prop := ∀ k, env.lag k = 0

/-- The calls between the broadcast and the deferred restore. -/
def awaited (env : Env) (process : Process) : List Action :=
  if env.r1 = 0 then []
  else Action.Now ::
    (pollLoop env process.Pid (env.now + 10 * time.Second) 0 (env.now + env.lag 0)).1

/-! ## Sample environments -/

/-- An environment where `taskkill` starts and exits with status 1. -/
def envTaskkillExit1 : Env where
  start := fun _ _ => none
  wait := WaitStatus.exited 1
  signal := fun _ _ => none
  r1 := 1
  lastErr := Error.errno 0 "The operation completed successfully."
  now := 0
  lag := fun _ => 0
  found := fun _ _ => false

/-- An environment where `taskkill` starts and exits with status 0. -/
def envTaskkillExit0 : Env where
  start := fun _ _ => none
  wait := WaitStatus.exited 0
  signal := fun _ _ => none
  r1 := 1
  lastErr := Error.errno 0 "The operation completed successfully."
  now := 0
  lag := fun _ => 0
  found := fun _ _ => false

/-- An environment without `taskkill`, where the direct signal is refused. -/
def envNoTaskkill : Env where
  start := fun _ _ => some (Error.other "exec: taskkill: executable file not found in %PATH%")
  wait := WaitStatus.exited 0
  signal := fun _ _ => some (Error.errno 536870951 "not supported by windows")
  r1 := 1
  lastErr := Error.errno 0 "The operation completed successfully."
  now := 0
  lag := fun _ => 0
  found := fun _ _ => false

/-- An environment on a steady clock where the target is gone at the fourth lookup. -/
def envExitsAfter3 : Env where
  start := fun _ _ => none
  wait := WaitStatus.exited 0
  signal := fun _ _ => none
  r1 := 1
  lastErr := Error.errno 0 "The operation completed successfully."
  now := 5000000000
  lag := fun _ => 0
  found := fun k _ => decide (k < 3)

/-- An environment on a steady clock where the target never exits. -/
def envNeverExits : Env where
  start := fun _ _ => none
  wait := WaitStatus.exited 0
  signal := fun _ _ => none
  r1 := 1
  lastErr := Error.errno 0 "The operation completed successfully."
  now := 5000000000
  lag := fun _ => 0
  found := fun _ _ => true

/-! ## The poll loop -/

/-- The loop left at once: the deadline is not after the clock. -/
theorem pollLoop_expired (env : Env) (pid : Int) (endTime k now : Nat)
    (h : endTime ≤ now) : pollLoop env pid endTime k now = ([Action.Now], now) := by
  rw [pollLoop, if_neg (by omega)]

/-- The loop left by `break`: the lookup finds no process. -/
theorem pollLoop_gone (env : Env) (pid : Int) (endTime k now : Nat)
    (h : now < endTime) (hf : env.found k pid = false) :
    pollLoop env pid endTime k now = ([Action.Now, Action.FindProcess pid], now) := by
  rw [pollLoop, if_pos h]
  simp [hf]

/-- One full round of the loop: the lookup finds the process. -/
theorem pollLoop_found (env : Env) (pid : Int) (endTime k now : Nat)
    (h : now < endTime) (hf : env.found k pid = true) :
    pollLoop env pid endTime k now =
      (round pid ++ (pollLoop env pid endTime (k + 1)
          (now + time.Second + env.lag (k + 1))).1,
        (pollLoop env pid endTime (k + 1) (now + time.Second + env.lag (k + 1))).2) := by
  rw [pollLoop, if_pos h]
  simp [hf, round]

/-- The loop only reads the clock, looks the process up, releases it and sleeps. -/
theorem pollLoop_actions (env : Env) (pid : Int) (endTime : Nat) :
    ∀ n k now, endTime ≤ now + n * time.Second →
      ∀ a ∈ (pollLoop env pid endTime k now).1,
        a = Action.Now ∨ a = Action.FindProcess pid ∨ a = Action.Release pid ∨
          a = Action.Sleep (1 * time.Second) := by
  intro n
  induction n with
  | zero =>
    intro k now h a ha
    rw [pollLoop_expired env pid endTime k now (by omega)] at ha
    simp at ha
    exact Or.inl ha
  | succ n ih =>
    intro k now h a ha
    by_cases hlt : now < endTime
    · cases hf : env.found k pid with
      | false =>
        rw [pollLoop_gone env pid endTime k now hlt hf] at ha
        simp at ha
        rcases ha with ha | ha
        · exact Or.inl ha
        · exact Or.inr (Or.inl ha)
      | true =>
        rw [pollLoop_found env pid endTime k now hlt hf] at ha
        simp only [List.mem_append] at ha
        rcases ha with ha | ha
        · simp [round] at ha
          rcases ha with ha | ha | ha | ha
          · exact Or.inl ha
          · exact Or.inr (Or.inl ha)
          · exact Or.inr (Or.inr (Or.inl ha))
          · exact Or.inr (Or.inr (Or.inr (by simp [ha])))
        · refine ih (k + 1) (now + time.Second + env.lag (k + 1)) ?_ a ha
          have : (n + 1) * time.Second = n * time.Second + time.Second := by ring
          omega
    · rw [pollLoop_expired env pid endTime k now (by omega)] at ha
      simp at ha
      exact Or.inl ha

/-- Every clock reading has a whole number of seconds that reaches the deadline. -/
theorem deadline_reached (endTime now : Nat) : endTime ≤ now + endTime * time.Second := by
  have : endTime * 1 ≤ endTime * time.Second := Nat.mul_le_mul_left _ (by decide)
  omega

/-- Lookups of two traces in a row. -/
theorem lookups_append (xs ys : List Action) :
    lookups (xs ++ ys) = lookups xs + lookups ys := by
  induction xs with
  | nil => simp [lookups]
  | cons x xs ih =>
    rw [List.cons_append]
    cases x <;> simp only [lookups, ih]
    omega

/-- Sleeps of two traces in a row. -/
theorem sleeps_append (xs ys : List Action) :
    sleeps (xs ++ ys) = sleeps xs + sleeps ys := by
  induction xs with
  | nil => simp [sleeps]
  | cons x xs ih =>
    rw [List.cons_append]
    cases x <;> simp only [sleeps, ih]
    omega

/-- Lookups of a list of full rounds. -/
theorem lookups_rounds (pid : Int) (n : Nat) : lookups (rounds pid n) = n := by
  induction n with
  | zero => rfl
  | succ n ih =>
    rw [rounds, lookups_append, ih]
    simp [round, lookups]
    omega

/-- Sleeps of a list of full rounds. -/
theorem sleeps_rounds (pid : Int) (n : Nat) : sleeps (rounds pid n) = n := by
  induction n with
  | zero => rfl
  | succ n ih =>
    rw [rounds, sleeps_append, ih]
    simp [round, sleeps]
    omega

/-- With `n` seconds or less to the deadline the loop makes at most `n` lookups. -/
theorem pollLoop_lookups_le (env : Env) (pid : Int) (endTime : Nat) :
    ∀ n k now, endTime ≤ now + n * time.Second →
      lookups (pollLoop env pid endTime k now).1 ≤ n := by
  intro n
  induction n with
  | zero =>
    intro k now h
    rw [pollLoop_expired env pid endTime k now (by omega)]
    simp [lookups]
  | succ n ih =>
    intro k now h
    by_cases hlt : now < endTime
    · cases hf : env.found k pid with
      | false =>
        rw [pollLoop_gone env pid endTime k now hlt hf]
        simp [lookups]
      | true =>
        rw [pollLoop_found env pid endTime k now hlt hf]
        have hrec := ih (k + 1) (now + time.Second + env.lag (k + 1)) (by
          have : (n + 1) * time.Second = n * time.Second + time.Second := by ring
          omega)
        simp only [round, List.cons_append, List.nil_append, lookups]
        exact Nat.succ_le_succ hrec
    · rw [pollLoop_expired env pid endTime k now (by omega)]
      simp [lookups]

/-- On a steady clock, `d` lookups in a row that find the process are `d` full rounds. -/
theorem pollLoop_rounds (env : Env) (pid : Int) (t0 : Nat) (hlag : env.steadyClock) :
    ∀ d k, (∀ j, k ≤ j → j < k + d → env.found j pid = true) → k + d ≤ 10 →
      pollLoop env pid (t0 + 10 * time.Second) k (t0 + k * time.Second) =
        (rounds pid d ++ (pollLoop env pid (t0 + 10 * time.Second) (k + d)
            (t0 + (k + d) * time.Second)).1,
          (pollLoop env pid (t0 + 10 * time.Second) (k + d)
            (t0 + (k + d) * time.Second)).2) := by
  intro d
  induction d with
  | zero =>
    intro k _ _
    simp [rounds]
  | succ d ih =>
    intro k hfound hle
    have hlt : t0 + k * time.Second < t0 + 10 * time.Second := by
      have : k * time.Second < 10 * time.Second :=
        Nat.mul_lt_mul_of_pos_right (by omega) (by decide)
      omega
    rw [pollLoop_found env pid _ k _ hlt (hfound k (le_refl k) (by omega))]
    have hnext : t0 + k * time.Second + time.Second + env.lag (k + 1) =
        t0 + (k + 1) * time.Second := by
      rw [hlag (k + 1)]
      ring
    rw [hnext, ih (k + 1) (fun j h1 h2 => hfound j (by omega) (by omega)) (by omega)]
    have hidx : k + 1 + d = k + (d + 1) := by omega
    simp only [rounds, hidx, List.append_assoc]

/-! ## Shared facts about `Kill` and `generateConsoleCtrlEvent` -/

/-- Shape of every trace of `generateConsoleCtrlEvent`. -/
theorem generateConsoleCtrlEvent_trace (env : Env) (process : Process) (sig : os.Signal)
    (sigChilren : Bool) :
    (generateConsoleCtrlEvent env process sig sigChilren).trace =
      Action.SetConsoleCtrlHandler 0 1 ::
        Action.GenerateConsoleCtrlEvent syscall.CTRL_C_EVENT 0 ::
          (awaited env process ++ [Action.SetConsoleCtrlHandler 0 0]) := by
  unfold generateConsoleCtrlEvent awaited
  by_cases h : env.r1 = 0
  · simp [h]
  · simp [h]

/-- Between the broadcast and the restore there are only clock readings, lookups,
releases and sleeps. -/
theorem awaited_actions (env : Env) (process : Process) :
    ∀ a ∈ awaited env process,
      a = Action.Now ∨ a = Action.FindProcess process.Pid ∨
        a = Action.Release process.Pid ∨ a = Action.Sleep (1 * time.Second) := by
  intro a ha
  unfold awaited at ha
  by_cases h : env.r1 = 0
  · simp [h] at ha
  · rw [if_neg h] at ha
    rcases List.mem_cons.mp ha with ha | ha
    · exact Or.inl ha
    · exact pollLoop_actions env process.Pid _ _ 0 _ (deadline_reached _ _) a ha

/-- Calls that leave the handler state as it is leave it so in sequence. -/
theorem CtrlMode.after_inert (m : CtrlMode) (xs : List Action)
    (h : ∀ a ∈ xs, m.step a = m) : m.after xs = m := by
  induction xs with
  | nil => rfl
  | cons x xs ih =>
    have hx : m.step x = m := h x (List.mem_cons_self x xs)
    have hxs : m.after xs = m := ih (fun a ha => h a (List.mem_cons_of_mem x ha))
    unfold CtrlMode.after at hxs ⊢
    rw [List.foldl_cons, hx]
    exact hxs

/-- The flag `sigChilren` is not read by `generateConsoleCtrlEvent`. -/
theorem generateConsoleCtrlEvent_flag (env : Env) (process : Process) (sig : os.Signal)
    (b c : Bool) :
    generateConsoleCtrlEvent env process sig b = generateConsoleCtrlEvent env process sig c :=
  rfl

/-- The argument `sig` is not read by `generateConsoleCtrlEvent`. -/
theorem generateConsoleCtrlEvent_sig (env : Env) (process : Process) (sig sig2 : os.Signal)
    (b : Bool) :
    generateConsoleCtrlEvent env process sig b = generateConsoleCtrlEvent env process sig2 b :=
  rfl

/-- `Kill` with the console-break value is `generateConsoleCtrlEvent`. -/
theorem Kill_break (env : Env) (process : Process) (b : Bool) :
    Kill env process (syscall.Signal 0xa) b =
      generateConsoleCtrlEvent env process (syscall.Signal 0xa) b := by
  unfold Kill
  rw [if_pos rfl]

/-- `Kill` with another signal when `taskkill` started. -/
theorem Kill_started (env : Env) (process : Process) (sig : os.Signal) (b : Bool)
    (hsig : sig ≠ syscall.Signal 0xa)
    (hstart : env.start "taskkill" ["/F", "/T", "/PID", fmt.Sprintf_d process.Pid] = none) :
    Kill env process sig b =
      ⟨Cmd.Wait env.wait,
        [Action.Start "taskkill" ["/F", "/T", "/PID", fmt.Sprintf_d process.Pid], Action.Wait],
        env.now⟩ := by
  unfold Kill
  rw [if_neg hsig]
  simp only [hstart]

/-- `Kill` with another signal when `taskkill` did not start. -/
theorem Kill_not_started (env : Env) (process : Process) (sig : os.Signal) (b : Bool)
    (e : Error) (hsig : sig ≠ syscall.Signal 0xa)
    (hstart : env.start "taskkill" ["/F", "/T", "/PID", fmt.Sprintf_d process.Pid] = some e) :
    Kill env process sig b =
      ⟨env.signal process.Pid sig,
        [Action.Start "taskkill" ["/F", "/T", "/PID", fmt.Sprintf_d process.Pid],
          Action.Signal process.Pid sig],
        env.now⟩ := by
  unfold Kill
  rw [if_neg hsig]
  simp only [hstart]

/-- First call of `Kill` with a signal other than the console-break value. -/
theorem Kill_nonbreak_head (env : Env) (process : Process) (sig : os.Signal) (b : Bool)
    (hsig : sig ≠ syscall.Signal 0xa) :
    ∃ next, (Kill env process sig b).trace =
      [Action.Start "taskkill" ["/F", "/T", "/PID", fmt.Sprintf_d process.Pid], next] ∧
      (next = Action.Wait ∨ next = Action.Signal process.Pid sig) := by
  cases hstart : env.start "taskkill" ["/F", "/T", "/PID", fmt.Sprintf_d process.Pid] with
  | none =>
    rw [Kill_started env process sig b hsig hstart]
    exact ⟨Action.Wait, rfl, Or.inl rfl⟩
  | some e =>
    rw [Kill_not_started env process sig b e hsig hstart]
    exact ⟨Action.Signal process.Pid sig, rfl, Or.inr rfl⟩

/-- For a non-negative pid `fmt.Sprintf_d` gives the decimal digits of the number. -/
theorem Sprintf_d_ofNat (n : Nat) : fmt.Sprintf_d (Int.ofNat n) = Nat.repr n := rfl

/-! ## Translation of names -/

/-- C1: `ToSignal` returns a non-nil error exactly for the names "USR1" and "USR2";
for those it returns the nil signal and emits exactly one warning whose text names the
signal and is the message of the returned error; for every other name it returns a
signal, a nil error, and logs nothing. -/
theorem ToSignal_error_iff_unsupported (name : String) :
    ((ToSignal name).err ≠ none ↔ (name = "USR1" ∨ name = "USR2")) ∧
    (if name = "USR1" ∨ name = "USR2" then
      (ToSignal name).sig = os.Signal.nil ∧
      (ToSignal name).logs = [log.Warn ("signal " ++ name ++ " is not supported in windows")] ∧
      (ToSignal name).err = some (errors.New ("signal " ++ name ++ " is not supported in windows")) ∧
      (ToSignal name).err.map Error.message = (ToSignal name).logs.head?.map LogEntry.msg
    else
      (ToSignal name).sig ≠ os.Signal.nil ∧ (ToSignal name).err = none ∧
      (ToSignal name).logs = []) := by
  by_cases h1 : name = "USR1"
  · subst h1
    decide
  by_cases h2 : name = "USR2"
  · subst h2
    decide
  have hno : ¬ (name = "USR1" ∨ name = "USR2") := by
    rintro (h | h)
    · exact h1 h
    · exact h2 h
  rw [if_neg hno]
  unfold ToSignal
  split_ifs <;> simp_all [syscall.SIGHUP, syscall.SIGINT, syscall.SIGQUIT, syscall.SIGKILL,
    syscall.SIGTERM, syscall.Signal]

/-- C7: every name other than "HUP", "INT", "QUIT", "KILL", "USR1", "USR2" and "BRK"
is translated to `SIGTERM` with a nil error (and no log entry). -/
theorem ToSignal_default_SIGTERM (name : String)
    (h : name ∉ ["HUP", "INT", "QUIT", "KILL", "USR1", "USR2", "BRK"]) :
    ToSignal name = ⟨syscall.SIGTERM, none, []⟩ := by
  simp only [List.mem_cons, List.mem_singleton, List.not_mem_nil, not_or, or_false] at h
  obtain ⟨h1, h2, h3, h4, h5, h6, h7⟩ := h
  simp [ToSignal, h1, h2, h3, h4, h5, h6, h7]

/-- Witness for C7 at the names "TERM", "", "usr1" and " HUP". -/
theorem ToSignal_default_SIGTERM_witness :
    ("TERM" ∉ ["HUP", "INT", "QUIT", "KILL", "USR1", "USR2", "BRK"] ∧
      ToSignal "TERM" = ⟨syscall.SIGTERM, none, []⟩) ∧
    ("" ∉ ["HUP", "INT", "QUIT", "KILL", "USR1", "USR2", "BRK"] ∧
      ToSignal "" = ⟨syscall.SIGTERM, none, []⟩) ∧
    ("usr1" ∉ ["HUP", "INT", "QUIT", "KILL", "USR1", "USR2", "BRK"] ∧
      ToSignal "usr1" = ⟨syscall.SIGTERM, none, []⟩) ∧
    (" HUP" ∉ ["HUP", "INT", "QUIT", "KILL", "USR1", "USR2", "BRK"] ∧
      ToSignal " HUP" = ⟨syscall.SIGTERM, none, []⟩) :=
  ⟨⟨by decide, ToSignal_default_SIGTERM "TERM" (by decide)⟩,
   ⟨by decide, ToSignal_default_SIGTERM "" (by decide)⟩,
   ⟨by decide, ToSignal_default_SIGTERM "usr1" (by decide)⟩,
   ⟨by decide, ToSignal_default_SIGTERM " HUP" (by decide)⟩⟩

/-- C8: `ToSignal` maps "HUP", "INT", "QUIT", "KILL" to `SIGHUP`, `SIGINT`, `SIGQUIT`,
`SIGKILL`, each with a nil error; the four signals are pairwise distinct; and two calls
with the same name give the same result. -/
theorem ToSignal_recognized :
    (ToSignal "HUP").sig = syscall.SIGHUP ∧ (ToSignal "HUP").err = none ∧
    (ToSignal "INT").sig = syscall.SIGINT ∧ (ToSignal "INT").err = none ∧
    (ToSignal "QUIT").sig = syscall.SIGQUIT ∧ (ToSignal "QUIT").err = none ∧
    (ToSignal "KILL").sig = syscall.SIGKILL ∧ (ToSignal "KILL").err = none ∧
    [(ToSignal "HUP").sig, (ToSignal "INT").sig, (ToSignal "QUIT").sig,
      (ToSignal "KILL").sig].Nodup ∧
    (∀ n m : String, n = m → ToSignal n = ToSignal m) := by
  refine ⟨by decide, by decide, by decide, by decide, by decide, by decide, by decide,
    by decide, by decide, ?_⟩
  intro n m hnm
  rw [hnm]

/-! ## Termination of a process -/

/-- C2, as the code has it: for a signal other than the console-break value, when
`taskkill` starts `Kill` returns the result of `cmd.Wait()` and calls nothing else, so
it returns nil exactly when `taskkill` exits with status zero; when `taskkill` does not
start it returns the result of `process.Signal`. -/
theorem Kill_nonbreak_result (env : Env) (process : Process) (sig : os.Signal) (b : Bool)
    (hsig : sig ≠ syscall.Signal 0xa) :
    if env.start "taskkill" ["/F", "/T", "/PID", fmt.Sprintf_d process.Pid] = none then
      Kill env process sig b =
        ⟨Cmd.Wait env.wait,
          [Action.Start "taskkill" ["/F", "/T", "/PID", fmt.Sprintf_d process.Pid],
            Action.Wait],
          env.now⟩ ∧
      ((Kill env process sig b).err = none ↔ env.wait = WaitStatus.exited 0)
    else
      (Kill env process sig b).err = env.signal process.Pid sig := by
  cases hstart : env.start "taskkill" ["/F", "/T", "/PID", fmt.Sprintf_d process.Pid] with
  | none =>
    rw [if_pos rfl, Kill_started env process sig b hsig hstart]
    refine ⟨rfl, ?_⟩
    cases hw : env.wait with
    | exited code =>
      cases code with
      | zero => simp [Cmd.Wait]
      | succ n => simp [Cmd.Wait]
    | failed e => simp [Cmd.Wait]
  | some e =>
    rw [if_neg (by simp), Kill_not_started env process sig b e hsig hstart]

/-- Witness for C2 as amended: `taskkill` starts and exits with status 0, and `Kill`
with `SIGKILL` returns nil. -/
theorem Kill_nonbreak_result_witness :
    syscall.SIGKILL ≠ syscall.Signal 0xa ∧
    (if envTaskkillExit0.start "taskkill" ["/F", "/T", "/PID", fmt.Sprintf_d 42] = none then
      Kill envTaskkillExit0 ⟨42⟩ syscall.SIGKILL true =
        ⟨Cmd.Wait envTaskkillExit0.wait,
          [Action.Start "taskkill" ["/F", "/T", "/PID", fmt.Sprintf_d 42], Action.Wait],
          envTaskkillExit0.now⟩ ∧
      ((Kill envTaskkillExit0 ⟨42⟩ syscall.SIGKILL true).err = none ↔
        envTaskkillExit0.wait = WaitStatus.exited 0)
    else
      (Kill envTaskkillExit0 ⟨42⟩ syscall.SIGKILL true).err =
        envTaskkillExit0.signal 42 syscall.SIGKILL) :=
  ⟨by decide, Kill_nonbreak_result envTaskkillExit0 ⟨42⟩ syscall.SIGKILL true (by decide)⟩

/-- C2 fails as stated: `taskkill` starts, exits with status 1, and `Kill` with `SIGTERM`
returns a non-nil error, the exit error of `taskkill`, though `process.Signal` is never
called. -/
theorem Kill_surfaces_taskkill_exit_status :
    syscall.SIGTERM ≠ syscall.Signal 0xa ∧
    envTaskkillExit1.start "taskkill" ["/F", "/T", "/PID", "42"] = none ∧
    envTaskkillExit1.wait = WaitStatus.exited 1 ∧
    (Kill envTaskkillExit1 ⟨42⟩ syscall.SIGTERM true).err ≠ none ∧
    (Kill envTaskkillExit1 ⟨42⟩ syscall.SIGTERM true).err = some (Error.exitError 1) ∧
    (Kill envTaskkillExit1 ⟨42⟩ syscall.SIGTERM true).trace =
      [Action.Start "taskkill" ["/F", "/T", "/PID", "42"], Action.Wait] := by
  decide

/-- C3: for a signal other than the console-break value, if `taskkill` does not start
then `Kill` calls `process.Signal(sig)` once, on the same process with the same signal,
and returns its result unchanged, whatever the start error was; if `taskkill` starts,
`process.Signal` is not called. -/
theorem Kill_fallback_signal (env : Env) (process : Process) (sig : os.Signal) (b : Bool)
    (hsig : sig ≠ syscall.Signal 0xa) :
    if (env.start "taskkill" ["/F", "/T", "/PID", fmt.Sprintf_d process.Pid]).isSome then
      Kill env process sig b =
        ⟨env.signal process.Pid sig,
          [Action.Start "taskkill" ["/F", "/T", "/PID", fmt.Sprintf_d process.Pid],
            Action.Signal process.Pid sig],
          env.now⟩ ∧
      (Kill env process sig b).trace.count (Action.Signal process.Pid sig) = 1 ∧
      (∀ a ∈ (Kill env process sig b).trace, ∀ pid s, a = Action.Signal pid s →
        pid = process.Pid ∧ s = sig)
    else
      ∀ a ∈ (Kill env process sig b).trace, ∀ pid s, a ≠ Action.Signal pid s := by
  cases hstart : env.start "taskkill" ["/F", "/T", "/PID", fmt.Sprintf_d process.Pid] with
  | none =>
    rw [if_neg (by simp), Kill_started env process sig b hsig hstart]
    intro a ha pid s
    simp only [List.mem_cons, List.mem_singleton, List.not_mem_nil, or_false] at ha
    rcases ha with ha | ha <;> simp [ha]
  | some e =>
    rw [if_pos (by simp), Kill_not_started env process sig b e hsig hstart]
    refine ⟨rfl, by simp [List.count_cons], ?_⟩
    intro a ha pid s hs
    simp only [List.mem_cons, List.mem_singleton, List.not_mem_nil, or_false] at ha
    rcases ha with ha | ha
    · rw [ha] at hs
      cases hs
    · rw [ha] at hs
      cases hs
      exact ⟨rfl, rfl⟩

/-- Witness for C3: without `taskkill`, `Kill` with `SIGTERM` on pid 42 makes the one
call `process.Signal(SIGTERM)` and returns its error. -/
theorem Kill_fallback_signal_witness :
    syscall.SIGTERM ≠ syscall.Signal 0xa ∧
    (envNoTaskkill.start "taskkill" ["/F", "/T", "/PID", fmt.Sprintf_d 42]).isSome = true ∧
    Kill envNoTaskkill ⟨42⟩ syscall.SIGTERM false =
      ⟨some (Error.errno 536870951 "not supported by windows"),
        [Action.Start "taskkill" ["/F", "/T", "/PID", "42"],
          Action.Signal 42 syscall.SIGTERM],
        0⟩ := by
  have h := Kill_fallback_signal envNoTaskkill ⟨42⟩ syscall.SIGTERM false (by decide)
  have hs : (envNoTaskkill.start "taskkill" ["/F", "/T", "/PID", fmt.Sprintf_d 42]).isSome
      = true := rfl
  rw [if_pos hs] at h
  exact ⟨by decide, hs, h.1⟩

/-! ## The console control path -/

/-- C4: every run of `generateConsoleCtrlEvent` (and so of `Kill` with the
console-break value) first calls `SetConsoleCtrlHandler(0, 1)`, then broadcasts the
event, and ends with `SetConsoleCtrlHandler(0, 0)`; no other call in between touches
the handler, so the supervisor ignores the event from the broadcast on and its handler
state after the call is normal, whatever it was before and however the call ends. -/
theorem generateConsoleCtrlEvent_restores_handler (env : Env) (process : Process)
    (sig : os.Signal) (b : Bool) (m0 : CtrlMode) :
    ∃ mid : List Action,
      (generateConsoleCtrlEvent env process sig b).trace =
        Action.SetConsoleCtrlHandler 0 1 ::
          Action.GenerateConsoleCtrlEvent syscall.CTRL_C_EVENT 0 ::
            (mid ++ [Action.SetConsoleCtrlHandler 0 0]) ∧
      (∀ a ∈ mid, a = Action.Now ∨ a = Action.FindProcess process.Pid ∨
        a = Action.Release process.Pid ∨ a = Action.Sleep (1 * time.Second)) ∧
      m0.after [Action.SetConsoleCtrlHandler 0 1] = CtrlMode.ignoring ∧
      m0.after (Action.SetConsoleCtrlHandler 0 1 ::
        Action.GenerateConsoleCtrlEvent syscall.CTRL_C_EVENT 0 :: mid) = CtrlMode.ignoring ∧
      m0.after (generateConsoleCtrlEvent env process sig b).trace = CtrlMode.normal ∧
      Kill env process (syscall.Signal 0xa) b =
        generateConsoleCtrlEvent env process (syscall.Signal 0xa) b ∧
      m0.after (Kill env process (syscall.Signal 0xa) b).trace = CtrlMode.normal := by
  have hmid := awaited_actions env process
  have hinert : ∀ a ∈ awaited env process, CtrlMode.ignoring.step a = CtrlMode.ignoring := by
    intro a ha
    rcases hmid a ha with h | h | h | h <;> rw [h] <;> rfl
  have hkeep : m0.after (Action.SetConsoleCtrlHandler 0 1 ::
      Action.GenerateConsoleCtrlEvent syscall.CTRL_C_EVENT 0 :: awaited env process) =
      CtrlMode.ignoring := by
    have h := CtrlMode.after_inert CtrlMode.ignoring (awaited env process) hinert
    unfold CtrlMode.after at h ⊢
    rw [List.foldl_cons, List.foldl_cons]
    exact h
  have hend : m0.after (generateConsoleCtrlEvent env process sig b).trace =
      CtrlMode.normal := by
    rw [generateConsoleCtrlEvent_trace]
    unfold CtrlMode.after at hkeep ⊢
    rw [← List.cons_append, ← List.cons_append, List.foldl_append, hkeep]
    rfl
  refine ⟨awaited env process, generateConsoleCtrlEvent_trace env process sig b, hmid,
    rfl, hkeep, hend, ?_, ?_⟩
  · exact Kill_break env process b
  · rw [Kill_break, generateConsoleCtrlEvent_sig env process _ sig]
    exact hend

/-- C5: `generateConsoleCtrlEvent` returns a non-nil error exactly when the first result
of the `GenerateConsoleCtrlEvent` call is 0; then it returns the error of that call and
makes no call but the deferred restore; when the send succeeds it returns nil, however
the wait ends. -/
theorem generateConsoleCtrlEvent_error_iff (env : Env) (process : Process)
    (sig : os.Signal) (b : Bool) :
    ((generateConsoleCtrlEvent env process sig b).err ≠ none ↔ env.r1 = 0) ∧
    (if env.r1 = 0 then
      generateConsoleCtrlEvent env process sig b =
        ⟨some env.lastErr,
          [Action.SetConsoleCtrlHandler 0 1,
            Action.GenerateConsoleCtrlEvent syscall.CTRL_C_EVENT 0,
            Action.SetConsoleCtrlHandler 0 0],
          env.now⟩
    else
      (generateConsoleCtrlEvent env process sig b).err = none ∧
      (generateConsoleCtrlEvent env process sig b).trace =
        Action.SetConsoleCtrlHandler 0 1 ::
          Action.GenerateConsoleCtrlEvent syscall.CTRL_C_EVENT 0 :: Action.Now ::
            ((pollLoop env process.Pid (env.now + 10 * time.Second) 0
              (env.now + env.lag 0)).1 ++ [Action.SetConsoleCtrlHandler 0 0])) := by
  by_cases h : env.r1 = 0
  · simp [generateConsoleCtrlEvent, h]
  · simp [generateConsoleCtrlEvent, h]

/-- C6: `ToSignal` returns the console-break value `Signal(0xa)` exactly for the name
"BRK"; that value is none of `SIGHUP`, `SIGINT`, `SIGQUIT`, `SIGKILL`, `SIGTERM`; and
`Kill` on the signal `ToSignal` returned runs `generateConsoleCtrlEvent`, and
broadcasts the control event, exactly when the name was "BRK". -/
theorem ToSignal_BRK_selects_console_path (name : String) (env : Env) (process : Process)
    (b : Bool) :
    ((ToSignal name).sig = syscall.Signal 0xa ↔ name = "BRK") ∧
    syscall.Signal 0xa ∉ [syscall.SIGHUP, syscall.SIGINT, syscall.SIGQUIT, syscall.SIGKILL,
      syscall.SIGTERM] ∧
    (Kill env process (ToSignal name).sig b =
      generateConsoleCtrlEvent env process (ToSignal name).sig b ↔ name = "BRK") ∧
    (Action.GenerateConsoleCtrlEvent syscall.CTRL_C_EVENT 0 ∈
      (Kill env process (ToSignal name).sig b).trace ↔ name = "BRK") := by
  have hsig : (ToSignal name).sig = syscall.Signal 0xa ↔ name = "BRK" := by
    constructor
    · intro h
      by_contra hne
      unfold ToSignal at h
      split_ifs at h <;> revert h <;> decide
    · intro h
      subst h
      decide
  refine ⟨hsig, by decide, ?_, ?_⟩
  · constructor
    · intro h
      by_contra hne
      have hns : (ToSignal name).sig ≠ syscall.Signal 0xa := fun hs => hne (hsig.mp hs)
      obtain ⟨next, htr, _⟩ := Kill_nonbreak_head env process (ToSignal name).sig b hns
      rw [h, generateConsoleCtrlEvent_trace] at htr
      simp at htr
    · intro h
      rw [hsig.mpr h]
      exact Kill_break env process b
  · constructor
    · intro h
      by_contra hne
      have hns : (ToSignal name).sig ≠ syscall.Signal 0xa := fun hs => hne (hsig.mp hs)
      obtain ⟨next, htr, hnext⟩ := Kill_nonbreak_head env process (ToSignal name).sig b hns
      rw [htr] at h
      simp only [List.mem_cons, List.mem_singleton, List.not_mem_nil, or_false] at h
      rcases h with h | h
      · cases h
      · rcases hnext with hn | hn <;> rw [hn] at h <;> cases h
    · intro h
      rw [hsig.mpr h, Kill_break, generateConsoleCtrlEvent_trace]
      simp

/-- C9: on a clock where each sleep takes exactly one second and nothing else takes
time, after a successful send the loop of `generateConsoleCtrlEvent` makes at most 10
lookups of the target pid; if lookup number `k` (from 0, `k < 10`) is the first that
finds no process, the run is `k` full rounds, that one lookup, and the deferred
restore, with `k` seconds elapsed; if the first 10 lookups all find the process, the run
is 10 full rounds, 10 lookups and 10 sleeps, with exactly 10 seconds elapsed. -/
theorem generateConsoleCtrlEvent_poll_bound (env : Env) (process : Process)
    (sig : os.Signal) (b : Bool) (hsend : env.r1 ≠ 0) (hclock : env.steadyClock) :
    lookups (generateConsoleCtrlEvent env process sig b).trace ≤ 10 ∧
    (∀ k, k < 10 → (∀ j, j < k → env.found j process.Pid = true) →
      env.found k process.Pid = false →
        (generateConsoleCtrlEvent env process sig b).trace =
          [Action.SetConsoleCtrlHandler 0 1,
            Action.GenerateConsoleCtrlEvent syscall.CTRL_C_EVENT 0, Action.Now] ++
          rounds process.Pid k ++
          [Action.Now, Action.FindProcess process.Pid, Action.SetConsoleCtrlHandler 0 0] ∧
        lookups (generateConsoleCtrlEvent env process sig b).trace = k + 1 ∧
        sleeps (generateConsoleCtrlEvent env process sig b).trace = k ∧
        (generateConsoleCtrlEvent env process sig b).clock = env.now + k * time.Second) ∧
    ((∀ j, j < 10 → env.found j process.Pid = true) →
      (generateConsoleCtrlEvent env process sig b).trace =
        [Action.SetConsoleCtrlHandler 0 1,
          Action.GenerateConsoleCtrlEvent syscall.CTRL_C_EVENT 0, Action.Now] ++
        rounds process.Pid 10 ++
        [Action.Now, Action.SetConsoleCtrlHandler 0 0] ∧
      lookups (generateConsoleCtrlEvent env process sig b).trace = 10 ∧
      sleeps (generateConsoleCtrlEvent env process sig b).trace = 10 ∧
      (generateConsoleCtrlEvent env process sig b).clock = env.now + 10 * time.Second) := by
  have hstart : env.now + env.lag 0 = env.now + 0 * time.Second := by
    rw [hclock 0]
    simp
  have hrun : generateConsoleCtrlEvent env process sig b =
      ⟨none,
        [Action.SetConsoleCtrlHandler 0 1,
          Action.GenerateConsoleCtrlEvent syscall.CTRL_C_EVENT 0, Action.Now] ++
        (pollLoop env process.Pid (env.now + 10 * time.Second) 0
          (env.now + 0 * time.Second)).1 ++ [Action.SetConsoleCtrlHandler 0 0],
        (pollLoop env process.Pid (env.now + 10 * time.Second) 0
          (env.now + 0 * time.Second)).2⟩ := by
    unfold generateConsoleCtrlEvent
    rw [if_neg hsend, hstart]
    simp
  refine ⟨?_, ?_, ?_⟩
  · rw [hrun]
    have hle := pollLoop_lookups_le env process.Pid (env.now + 10 * time.Second) 10 0
      (env.now + 0 * time.Second) (by omega)
    rw [lookups_append, lookups_append]
    have h1 : lookups [Action.SetConsoleCtrlHandler 0 1,
        Action.GenerateConsoleCtrlEvent syscall.CTRL_C_EVENT 0, Action.Now] = 0 := rfl
    have h2 : lookups [Action.SetConsoleCtrlHandler 0 0] = 0 := rfl
    omega
  · intro k hk hfound hgone
    have hrounds := pollLoop_rounds env process.Pid env.now hclock k 0
      (fun j _ h2 => hfound j (by omega)) (by omega)
    have hlt : env.now + (0 + k) * time.Second < env.now + 10 * time.Second := by
      have : (0 + k) * time.Second < 10 * time.Second :=
        Nat.mul_lt_mul_of_pos_right (by omega) (by decide)
      omega
    rw [pollLoop_gone env process.Pid _ (0 + k) _ hlt (by rw [Nat.zero_add]; exact hgone),
      Nat.zero_add] at hrounds
    have htrace : (generateConsoleCtrlEvent env process sig b).trace =
        [Action.SetConsoleCtrlHandler 0 1,
          Action.GenerateConsoleCtrlEvent syscall.CTRL_C_EVENT 0, Action.Now] ++
        rounds process.Pid k ++
        [Action.Now, Action.FindProcess process.Pid, Action.SetConsoleCtrlHandler 0 0] := by
      rw [hrun, hrounds]
      simp
    have hclk : (generateConsoleCtrlEvent env process sig b).clock =
        env.now + k * time.Second := by
      rw [hrun, hrounds]
    refine ⟨htrace, ?_, ?_, hclk⟩
    · rw [htrace, lookups_append, lookups_append, lookups_rounds]
      simp [lookups]
    · rw [htrace, sleeps_append, sleeps_append, sleeps_rounds]
      simp [sleeps]
  · intro hfound
    have hrounds := pollLoop_rounds env process.Pid env.now hclock 10 0
      (fun j _ h2 => hfound j (by omega)) (by omega)
    rw [pollLoop_expired env process.Pid _ (0 + 10) _ (by omega), Nat.zero_add] at hrounds
    have htrace : (generateConsoleCtrlEvent env process sig b).trace =
        [Action.SetConsoleCtrlHandler 0 1,
          Action.GenerateConsoleCtrlEvent syscall.CTRL_C_EVENT 0, Action.Now] ++
        rounds process.Pid 10 ++
        [Action.Now, Action.SetConsoleCtrlHandler 0 0] := by
      rw [hrun, hrounds]
      simp
    have hclk : (generateConsoleCtrlEvent env process sig b).clock =
        env.now + 10 * time.Second := by
      rw [hrun, hrounds]
    refine ⟨htrace, ?_, ?_, hclk⟩
    · rw [htrace, lookups_append, lookups_append, lookups_rounds]
      simp [lookups]
    · rw [htrace, sleeps_append, sleeps_append, sleeps_rounds]
      simp [sleeps]

/-- Witness for C9: a target gone at the fourth lookup gives 4 lookups, 3 sleeps and 3
seconds; a target that never exits gives 10 lookups, 10 sleeps and 10 seconds. -/
theorem generateConsoleCtrlEvent_poll_bound_witness :
    (envExitsAfter3.r1 ≠ 0 ∧ envExitsAfter3.steadyClock ∧
      lookups (generateConsoleCtrlEvent envExitsAfter3 ⟨42⟩ (syscall.Signal 0xa) true).trace
        = 4 ∧
      sleeps (generateConsoleCtrlEvent envExitsAfter3 ⟨42⟩ (syscall.Signal 0xa) true).trace
        = 3 ∧
      (generateConsoleCtrlEvent envExitsAfter3 ⟨42⟩ (syscall.Signal 0xa) true).clock =
        envExitsAfter3.now + 3 * time.Second) ∧
    (envNeverExits.r1 ≠ 0 ∧ envNeverExits.steadyClock ∧
      lookups (generateConsoleCtrlEvent envNeverExits ⟨42⟩ (syscall.Signal 0xa) true).trace
        = 10 ∧
      sleeps (generateConsoleCtrlEvent envNeverExits ⟨42⟩ (syscall.Signal 0xa) true).trace
        = 10 ∧
      (generateConsoleCtrlEvent envNeverExits ⟨42⟩ (syscall.Signal 0xa) true).clock =
        envNeverExits.now + 10 * time.Second) := by
  have h3 := (generateConsoleCtrlEvent_poll_bound envExitsAfter3 ⟨42⟩ (syscall.Signal 0xa)
    true (by decide) (fun _ => rfl)).2.1 3 (by decide)
    (fun j hj => by simp [envExitsAfter3, hj]) (by simp [envExitsAfter3])
  have h10 := (generateConsoleCtrlEvent_poll_bound envNeverExits ⟨42⟩ (syscall.Signal 0xa)
    true (by decide) (fun _ => rfl)).2.2 (fun _ _ => rfl)
  exact ⟨⟨by decide, fun _ => rfl, h3.2.1, h3.2.2.1, h3.2.2.2⟩,
    ⟨by decide, fun _ => rfl, h10.2.1, h10.2.2.1, h10.2.2.2⟩⟩

/-! ## The flag `sigChilren` -/

/-- C10: the flag has no influence on `Kill`: both values give the same calls, result
and clock. With the console-break value `Kill` is `generateConsoleCtrlEvent`, whose
trace holds no `taskkill` start, no wait and no `process.Signal`; with any other signal
the first call starts `taskkill /F /T /PID` followed by the pid in decimal. -/
theorem Kill_ignores_sigChildren (env : Env) (process : Process) (sig : os.Signal) :
    Kill env process sig true = Kill env process sig false ∧
    (∀ b, Kill env process (syscall.Signal 0xa) b =
        generateConsoleCtrlEvent env process (syscall.Signal 0xa) b ∧
      ∀ a ∈ (Kill env process (syscall.Signal 0xa) b).trace,
        (∀ name args, a ≠ Action.Start name args) ∧ a ≠ Action.Wait ∧
          ∀ pid s, a ≠ Action.Signal pid s) ∧
    (∀ b, (Kill env process sig b).trace.head? =
      some (if sig = syscall.Signal 0xa then Action.SetConsoleCtrlHandler 0 1
        else Action.Start "taskkill" ["/F", "/T", "/PID", fmt.Sprintf_d process.Pid])) ∧
    (∀ n : Nat, fmt.Sprintf_d (Int.ofNat n) = Nat.repr n) := by
  refine ⟨rfl, ?_, ?_, Sprintf_d_ofNat⟩
  · intro b
    refine ⟨Kill_break env process b, ?_⟩
    intro a ha
    rw [Kill_break, generateConsoleCtrlEvent_trace] at ha
    simp only [List.mem_cons, List.mem_append, List.mem_singleton, List.not_mem_nil,
      or_false] at ha
    rcases ha with ha | ha | ha | ha
    · rw [ha]
      simp
    · rw [ha]
      simp
    · rcases awaited_actions env process a ha with h | h | h | h <;> rw [h] <;> simp
    · rw [ha]
      simp
  · intro b
    by_cases hsig : sig = syscall.Signal 0xa
    · rw [if_pos hsig, hsig, Kill_break, generateConsoleCtrlEvent_trace]
      rfl
    · rw [if_neg hsig]
      obtain ⟨next, htr, _⟩ := Kill_nonbreak_head env process sig b hsig
      rw [htr]
      rfl

end Signals
